import Mathlib

/-!
Verification of the per-object execution coordinator of the insolar
repository (logicrunner / contractrequester packages).

The ContractRequester (ReceiveResult and its ResultMap of wait-points) is
translated directly from the Go source.  The LogicRunner implementation
itself is not among the provided source files; only its test suite is.
Those parts (OnPulse, releaseQueue, ClarifyPendingState, CheckExecutionLoop,
the message handlers, unsafeGetLedgerPendingRequest) are therefore modelled
from the specification, and, on the points where the repository's own test
suite pins behaviour that differs from the specification's sentences, the
tests are followed (each such point is called out in the doc comment of the
definition involved).

Machine context and causal tracing are represented by a trace identifier
(a natural number): in the source an execution context carries a trace id,
and a call made from inside an execution inherits the trace id of its
ancestor, so "the recorded context is an ancestor of the incoming call's
context" is observed by the source as equality of trace identifiers.
-/

namespace Insolar

/-- Pending status of an object's outstanding execution
(Go: message.PendingState with values PendingUnknown, InPending, NotPending). -/
inductive PendingState where
  | pendingUnknown
  | inPending
  | notPending
deriving DecidableEq

/-- Return mode of a method call: wait for the result or fire-and-forget
(Go: message.MethodReturnMode with values ReturnResult, ReturnNoWait). -/
inductive MethodReturnMode where
  | returnResult
  | returnNoWait
deriving DecidableEq

/-- An admitted request awaiting processing in an object's queue.  The
request identifier stands for the originating request reference, payload
and trace context, which the claims never inspect individually. -/
structure ExecutionQueueElement where
  requestId : Nat
deriving DecidableEq

/-- The in-flight call of an ExecutionState: its causal context (trace id),
its return mode, and whether a result has already been sent for it
(Go: CurrentExecution with fields Context, ReturnMode, SentResult). -/
structure CurrentExecution where
  Context : Nat
  ReturnMode : MethodReturnMode
  SentResult : Bool
deriving DecidableEq

/-- Cached object body (Go: ObjectBody); the claims only care about its
presence or absence, so it is a marker. -/
structure ObjectBody where
  body : Nat
deriving DecidableEq

/-- A request fetched from the ledger oracle, carrying the pulse number of
its origin (Go: message.Parcel, field PulseNumber). -/
structure Parcel where
  PulseNumber : Nat
deriving DecidableEq

/-- Per-object execution bundle (Go: ExecutionState).  Field names follow
the Go struct: Queue, Current, pending, PendingConfirmed,
LedgerHasMoreRequests, LedgerQueueElement, objectbody. -/
structure ExecutionState where
  Queue : List ExecutionQueueElement
  Current : Option CurrentExecution
  pending : PendingState
  PendingConfirmed : Bool
  LedgerHasMoreRequests : Bool
  LedgerQueueElement : Option Parcel
  objectbody : Option ObjectBody
deriving DecidableEq

/-- Wrapper of an object's execution state together with its independent
validation and consensus sub-states (Go: ObjectState).  The validation and
consensus sub-states are only tested for presence by the claims. -/
structure ObjectState where
  executionState : Option ExecutionState
  validation : Option Unit
  consensus : Option Unit
deriving DecidableEq

/-- A freshly created ExecutionState, as built by the message handlers when
no state exists yet for the addressed object. -/
def newExecutionState : ExecutionState :=
  { Queue := []
    Current := none
    pending := .pendingUnknown
    PendingConfirmed := false
    LedgerHasMoreRequests := false
    LedgerQueueElement := none
    objectbody := none }

/-- Maximum number of queued requests handed off in one ExecutorResults
message (Go: const maxQueueLength = 10, per the spec's concrete value). -/
def maxQueueLength : Nat := 10

/-- Modelled from the spec: releaseQueue (LogicRunner implementation absent
from the sources; behaviour per spec section 8 and TestReleaseQueue).  It
empties the state's queue and returns the released elements, truncated to
maxQueueLength, together with a flag that is true exactly when truncation
happened. -/
def ExecutionState.releaseQueue (es : ExecutionState) :
    ExecutionState × List ExecutionQueueElement × Bool :=
  if es.Queue.length > maxQueueLength then
    ({ es with Queue := [] }, es.Queue.take maxQueueLength, true)
  else
    ({ es with Queue := [] }, es.Queue, false)

/-- Handoff payload sent to the newly authorized executor at a pulse
boundary (Go: message.ExecutorResults; the object reference and validation
requests are omitted, the claims never inspect them). -/
structure ExecutorResultsMsg where
  Queue : List ExecutionQueueElement
  LedgerHasMoreRequests : Bool
  Pending : PendingState
deriving DecidableEq

/-- Modelled from the spec: the per-object step of OnPulse pulse-transition
reconciliation (spec section 4.2; LogicRunner implementation absent from
the sources).  Given whether this node is authorized as executor for the
new pulse, it returns the object's new state (none means the ObjectState is
deleted from the map) and the list of ExecutorResults handoff messages
emitted for this object.

Where the repository's test suite pins behaviour differing from the spec's
sentences, the tests are followed:
- when the node is not authorized and `Current` is set, the ExecutionState
  is retained with pending set to InPending after sending the handoff
  (tests TestESWithValidationCurrent, TestWithEmptyQueue,
  TestWithNotEmptyQueue assert the state is still present with
  pending = InPending), rather than deleted as the spec's handoff sentence
  says; deletion happens only when `Current` is unset;
- a handoff is also sent when `Current` is unset and the queue is empty but
  pending is InPending without confirmation (test
  TestSendTaskToNextExecutor requires a send in that configuration);
- the ObjectState as a whole is deleted only when no execution, validation
  or consensus state remains (tests TestEmptyES, TestEmptyESWithValidation). -/
def onPulseObject (authorized : Bool) (os : ObjectState) :
    Option ObjectState × List ExecutorResultsMsg :=
  match os.executionState with
  | none =>
      if os.validation = none ∧ os.consensus = none then (none, [])
      else (some os, [])
  | some es =>
    if authorized then
      if es.pending = .inPending then
        if es.PendingConfirmed then
          (some { os with executionState := some { es with PendingConfirmed := false } }, [])
        else
          (some { os with executionState := some { es with pending := .notPending } }, [])
      else (some { os with executionState := some es }, [])
    else
      match es.Current with
      | some _ =>
          let es1 : ExecutionState := { es with pending := .inPending }
          let r := es1.releaseQueue
          let msg : ExecutorResultsMsg :=
            { Queue := r.2.1
              LedgerHasMoreRequests := es1.LedgerHasMoreRequests || r.2.2
              Pending := es1.pending }
          (some { os with executionState := some r.1 }, [msg])
      | none =>
          let es1 : ExecutionState :=
            if es.pending = .inPending ∧ es.PendingConfirmed = false then
              { es with pending := .notPending }
            else es
          let msgs : List ExecutorResultsMsg :=
            if es.Queue ≠ [] ∨ (es.pending = .inPending ∧ es.PendingConfirmed = false) then
              let r := es1.releaseQueue
              [{ Queue := r.2.1
                 LedgerHasMoreRequests := es1.LedgerHasMoreRequests || r.2.2
                 Pending := es1.pending }]
            else []
          (if os.validation = none ∧ os.consensus = none then none
           else some { os with executionState := none }, msgs)

/-- Modelled from the spec: the HandleStillExecutingMessage handler
(LogicRunner implementation absent from the sources).  It receives the map
entry for the addressed object (none when the object is untracked) and
returns the updated ObjectState, creating the ExecutionState when absent.

Where the test suite pins behaviour differing from the spec's sentence:
when the existing ExecutionState already records NotPending, the state is
left unchanged (test TestHandleStillExecutingMessage asserts pending stays
NotPending and PendingConfirmed stays false), rather than being set to
InPending unconditionally as the spec says. -/
def handleStillExecuting (os : Option ObjectState) : ObjectState :=
  let st := os.getD ⟨none, none, none⟩
  match st.executionState with
  | none =>
      let fresh := { newExecutionState with pending := .inPending, PendingConfirmed := true }
      { st with executionState := some fresh }
  | some es =>
      if es.pending = .notPending then st
      else
        let es1 := { es with pending := .inPending, PendingConfirmed := true }
        { st with executionState := some es1 }

/-- Modelled from the spec: the HandlePendingFinishedMessage handler
(LogicRunner implementation absent from the sources; behaviour per spec
section 4.1 and TestHandlePendingFinishedMessage).  When `Current` is still
set it returns an error and leaves the state alone; otherwise it sets
pending to NotPending, clears the cached object body, and reports success.
An absent ObjectState or ExecutionState is created with
pending = NotPending. -/
def handlePendingFinished (os : Option ObjectState) : ObjectState × Option String :=
  let st := os.getD ⟨none, none, none⟩
  match st.executionState with
  | none =>
      let fresh := { newExecutionState with pending := .notPending }
      ({ st with executionState := some fresh }, none)
  | some es =>
      if es.Current.isSome then
        (st, some "got PendingFinished message while current execution is set")
      else
        let es1 := { es with pending := .notPending, objectbody := none }
        ({ st with executionState := some es1 }, none)

/-- Kind of the inbound message that triggers pending-state resolution. -/
inductive ParcelKind where
  | callMethod
  | callConstructor
deriving DecidableEq

/-- Modelled from the spec: ClarifyPendingState (LogicRunner implementation
absent from the sources; behaviour per spec section 4.1 and
TestCheckPendingRequests).  `oracle` is the ledger oracle's answer to
HasPendingRequests: an error, or whether pending requests exist.  Returns
the updated ExecutionState and the error surfaced to the caller, if any.
When pending is already known, the call is a no-op.  A constructor call
resolves Unknown to NotPending without consulting the oracle; a method call
follows the oracle, and on oracle failure the status stays Unknown and the
error is returned. -/
def clarifyPendingState (es : ExecutionState) (kind : ParcelKind)
    (oracle : Except String Bool) : ExecutionState × Option String :=
  if es.pending ≠ .pendingUnknown then (es, none)
  else
    match kind with
    | .callConstructor => ({ es with pending := .notPending }, none)
    | .callMethod =>
        match oracle with
        | .error e => (es, some e)
        | .ok true => ({ es with pending := .inPending }, none)
        | .ok false => ({ es with pending := .notPending }, none)

/-- Modelled from the spec: CheckExecutionLoop (LogicRunner implementation
absent from the sources; behaviour per spec section 4.1 and
TestCheckExecutionLoop).  `ctxTrace` is the trace id of the incoming call's
context, and `incoming` is the incoming CallMethod's return mode (none when
the parcel carries no method-call message).  Causal ancestry is observed as
equality of trace identifiers, as in the source's trace-id comparison. -/
def checkExecutionLoop (ctxTrace : Nat) (es : ExecutionState)
    (incoming : Option MethodReturnMode) : Bool :=
  match es.Current with
  | none => false
  | some cur =>
      if cur.SentResult then false
      else if cur.ReturnMode ≠ .returnResult then false
      else if incoming = some .returnNoWait then false
      else decide (cur.Context = ctxTrace)

/-- Modelled from the spec: unsafeGetLedgerPendingRequest (LogicRunner
implementation absent from the sources; behaviour per spec section 4.3 and
the TestLRUnsafeGetLedgerPendingRequest suite).  `getPending` is the ledger
oracle's answer (error means the distinct no-pending-request condition),
`currentPulse` is the authoritative pulse obtained fresh from the pulse
source, and `isAuthorized` is the membership oracle as a function of the
pulse it is queried at.  A fetch is attempted only when no element is
cached and the ledger is flagged as having more requests; a fetched request
is kept only when the node is authorized as of the fresh current pulse. -/
def unsafeGetLedgerPendingRequest (es : ExecutionState)
    (getPending : Except Unit Parcel) (currentPulse : Nat)
    (isAuthorized : Nat → Bool) : ExecutionState :=
  if es.LedgerQueueElement.isSome then es
  else if es.LedgerHasMoreRequests = false then es
  else
    match getPending with
    | .error _ => { es with LedgerHasMoreRequests := false }
    | .ok parcel =>
        if isAuthorized currentPulse = false then es
        else { es with LedgerQueueElement := some parcel }

/-- Result message correlated by sequence number
(Go: message.ReturnResults, field Sequence). -/
structure ReturnResults where
  Sequence : Nat
  payload : Nat
deriving DecidableEq

/-- Message carried by a parcel delivered to ReceiveResult: either a
ReturnResults message or a message of any other kind. -/
inductive ParcelMessage where
  | returnResults (msg : ReturnResults)
  | other
deriving DecidableEq

/-- State of the ContractRequester relevant to result correlation: the set
of sequence numbers with a registered wait-point channel
(Go: ContractRequester.ResultMap, a map from uint64 to channels; map keys
are unique, so the set of keys is what ReceiveResult observes). -/
structure ContractRequester where
  ResultMap : List Nat
deriving DecidableEq

/-- Outcome of ReceiveResult: an OK reply with the message silently dropped,
an OK reply with the message delivered to the registered wait-point, or the
wrong-message-kind error. -/
inductive ReceiveOutcome where
  | okDropped
  | okDelivered (msg : ReturnResults)
  | errWrongType
deriving DecidableEq

/-- Translated from the source (contractrequester, ReceiveResult): a parcel
that is not a ReturnResults message is rejected with an error; otherwise,
when no wait-point is registered for the message's sequence number the
message is dropped and an OK reply returned with the map unchanged; when a
wait-point exists the message is delivered to it and the entry removed,
again with an OK reply. -/
def ReceiveResult (cr : ContractRequester) (p : ParcelMessage) :
    ContractRequester × ReceiveOutcome :=
  match p with
  | .other => (cr, .errWrongType)
  | .returnResults msg =>
      if msg.Sequence ∈ cr.ResultMap then
        ({ ResultMap := cr.ResultMap.filter (fun s => s ≠ msg.Sequence) },
         .okDelivered msg)
      else (cr, .okDropped)

/-- C1 counterexample: the claim says that for a tracked object where the
node is not authorized and `Current` is set, OnPulse deletes the local
ObjectState.  At this concrete input (not authorized, `Current` set, empty
queue, no validation or consensus state) the object is NOT deleted: it is
retained with pending set to InPending, alongside the single handoff
message. -/
theorem c1_handoff_counterexample :
    onPulseObject false
        ⟨some ⟨[], some ⟨0, .returnResult, false⟩, .notPending, false, false, none, none⟩,
         none, none⟩ =
      (some ⟨some ⟨[], some ⟨0, .returnResult, false⟩, .inPending, false, false, none, none⟩,
            none, none⟩,
       [⟨[], false, .inPending⟩]) ∧
    (onPulseObject false
        ⟨some ⟨[], some ⟨0, .returnResult, false⟩, .notPending, false, false, none, none⟩,
         none, none⟩).1 ≠ none :=
  ⟨by decide, by decide⟩

/-- C1 (amended): for every tracked object where the node is not authorized
for the new pulse and `Current` is set or the queue is non-empty, OnPulse
emits exactly one ExecutorResults handoff message; when `Current` is unset
the local ObjectState is then deleted (it has no validation or consensus
state to retain) regardless of the send outcome; when `Current` is set the
ExecutionState is instead retained with pending set to InPending and the
queue released. -/
theorem c1_handoff_amended (os : ObjectState) (es : ExecutionState)
    (hes : os.executionState = some es)
    (hscope : es.Current.isSome ∨ es.Queue ≠ []) :
    (onPulseObject false os).2.length = 1 ∧
    (es.Current = none → os.validation = none → os.consensus = none →
      (onPulseObject false os).1 = none) ∧
    (∀ cur, es.Current = some cur →
      (onPulseObject false os).1 =
        some { os with executionState := some ({ es with pending := .inPending, Queue := [] }) }) := by
  cases hc : es.Current with
  | none =>
      have hq : es.Queue ≠ [] := by
        rcases hscope with h | h
        · rw [hc] at h; simp at h
        · exact h
      refine ⟨?_, ?_, ?_⟩
      · simp only [onPulseObject, hes, hc]
        rw [if_pos (Or.inl hq)]
        simp
      · intro _ hv hcons
        simp only [onPulseObject, hes, hc]
        simp [hv, hcons]
      · intro cur hcur
        cases hcur
  | some cur =>
      refine ⟨?_, ?_, ?_⟩
      · simp [onPulseObject, hes, hc]
      · intro h
        cases h
      · intro cur2 _
        simp only [onPulseObject, hes, hc]
        simp [ExecutionState.releaseQueue]
        split <;> rfl

/-- C1 witness: a not-authorized object with a non-empty queue and no
current execution yields exactly one handoff message and is deleted. -/
theorem c1_handoff_witness :
    (onPulseObject false
        ⟨some ⟨[⟨7⟩], none, .notPending, false, false, none, none⟩, none, none⟩).2.length = 1 ∧
    (onPulseObject false
        ⟨some ⟨[⟨7⟩], none, .notPending, false, false, none, none⟩, none, none⟩).1 = none :=
  ⟨(c1_handoff_amended _ _ rfl (Or.inr (by decide))).1,
   (c1_handoff_amended _ _ rfl (Or.inr (by decide))).2.1 rfl rfl rfl⟩

/-- C2 counterexample: the claim says HandleStillExecuting sets
pending = InPending and pendingConfirmed = true for every addressed object.
At this concrete input, an existing ExecutionState with
pending = NotPending, the handler leaves the state unchanged, so pending is
not InPending afterwards. -/
theorem c2_stillExecuting_counterexample :
    handleStillExecuting
        (some ⟨some ⟨[], none, .notPending, false, false, none, none⟩, none, none⟩) =
      ⟨some ⟨[], none, .notPending, false, false, none, none⟩, none, none⟩ ∧
    ¬ ((handleStillExecuting
        (some ⟨some ⟨[], none, .notPending, false, false, none, none⟩, none, none⟩)).executionState.map
          (fun e => e.pending) = some .inPending) :=
  ⟨by decide, by decide⟩

/-- C2 (amended): for every object addressed by a StillExecuting message,
the handler sets pending = InPending and pendingConfirmed = true, creating
the ExecutionState if absent, except when an existing ExecutionState
already records pending = NotPending, in which case the state is left
unchanged. -/
theorem c2_stillExecuting_amended :
    ((handleStillExecuting none).executionState =
      some { newExecutionState with pending := .inPending, PendingConfirmed := true }) ∧
    (∀ st : ObjectState, st.executionState = none →
      (handleStillExecuting (some st)).executionState =
        some { newExecutionState with pending := .inPending, PendingConfirmed := true }) ∧
    (∀ (st : ObjectState) (es : ExecutionState), st.executionState = some es →
      es.pending ≠ .notPending →
      handleStillExecuting (some st) =
        { st with executionState := some ({ es with pending := .inPending, PendingConfirmed := true }) }) ∧
    (∀ (st : ObjectState) (es : ExecutionState), st.executionState = some es →
      es.pending = .notPending →
      handleStillExecuting (some st) = st) := by
  refine ⟨by simp [handleStillExecuting], ?_, ?_, ?_⟩
  · intro st h
    simp [handleStillExecuting, h]
  · intro st es h hne
    simp [handleStillExecuting, h, hne]
  · intro st es h he
    simp [handleStillExecuting, h, he]

/-- C2 witness: creation on an absent ExecutionState, the InPending update
on an Unknown state, and preservation of a NotPending state, each at a
concrete input. -/
theorem c2_stillExecuting_witness :
    (handleStillExecuting (some ⟨none, some (), none⟩)).executionState =
      some { newExecutionState with pending := .inPending, PendingConfirmed := true } ∧
    handleStillExecuting
        (some ⟨some ⟨[], none, .pendingUnknown, false, false, none, none⟩, none, none⟩) =
      ⟨some ⟨[], none, .inPending, true, false, none, none⟩, none, none⟩ ∧
    handleStillExecuting
        (some ⟨some ⟨[], none, .notPending, false, false, none, none⟩, none, none⟩) =
      ⟨some ⟨[], none, .notPending, false, false, none, none⟩, none, none⟩ :=
  ⟨c2_stillExecuting_amended.2.1 _ rfl,
   c2_stillExecuting_amended.2.2.1 _ _ rfl (by decide),
   c2_stillExecuting_amended.2.2.2 _ _ rfl rfl⟩

/-- C3: for every authorized object with pending = InPending at a pulse
transition, if pendingConfirmed is true then after OnPulse pending remains
InPending and pendingConfirmed is reset to false; if pendingConfirmed is
false then after OnPulse pending becomes NotPending. -/
theorem c3_pending_confirmation (os : ObjectState) (es : ExecutionState)
    (hes : os.executionState = some es) (hp : es.pending = .inPending) :
    (es.PendingConfirmed = true →
      onPulseObject true os =
        (some { os with executionState := some ({ es with PendingConfirmed := false }) }, [])) ∧
    (es.PendingConfirmed = false →
      onPulseObject true os =
        (some { os with executionState := some ({ es with pending := .notPending }) }, [])) := by
  constructor
  · intro h
    simp [onPulseObject, hes, hp, h]
  · intro h
    simp [onPulseObject, hes, hp, h]

/-- C3 witness: confirmation renewal and confirmation lapse, each at a
concrete InPending object. -/
theorem c3_pending_confirmation_witness :
    onPulseObject true ⟨some ⟨[], none, .inPending, true, false, none, none⟩, none, none⟩ =
      (some ⟨some ⟨[], none, .inPending, false, false, none, none⟩, none, none⟩, []) ∧
    onPulseObject true ⟨some ⟨[], none, .inPending, false, false, none, none⟩, none, none⟩ =
      (some ⟨some ⟨[], none, .notPending, false, false, none, none⟩, none, none⟩, []) :=
  ⟨(c3_pending_confirmation _ _ rfl rfl).1 rfl,
   (c3_pending_confirmation _ _ rfl rfl).2 rfl⟩

/-- C4: for every queue of length N, releasing with N ≤ maxQueueLength
returns all N elements and hasMore = false; releasing with
N = maxQueueLength + 1 returns exactly maxQueueLength elements and
hasMore = true. -/
theorem c4_releaseQueue_truncation (es : ExecutionState) :
    (es.Queue.length ≤ maxQueueLength →
      (es.releaseQueue).2.1 = es.Queue ∧ (es.releaseQueue).2.2 = false) ∧
    (es.Queue.length = maxQueueLength + 1 →
      (es.releaseQueue).2.1.length = maxQueueLength ∧ (es.releaseQueue).2.2 = true) := by
  constructor
  · intro h
    have hn : ¬ es.Queue.length > maxQueueLength := by omega
    simp [ExecutionState.releaseQueue, hn]
  · intro h
    have hy : es.Queue.length > maxQueueLength := by omega
    simp [ExecutionState.releaseQueue, hy, List.length_take]
    omega

/-- C4 witness: a queue of 3 elements is released whole without the
has-more flag; a queue of 11 elements is truncated with the flag set. -/
theorem c4_releaseQueue_witness :
    (((⟨(List.range 3).map (⟨·⟩), none, .pendingUnknown, false, false, none, none⟩ : ExecutionState).releaseQueue).2.2 = false) ∧
    (((⟨(List.range 11).map (⟨·⟩), none, .pendingUnknown, false, false, none, none⟩ : ExecutionState).releaseQueue).2.2 = true) :=
  ⟨((c4_releaseQueue_truncation _).1 (by decide)).2,
   ((c4_releaseQueue_truncation _).2 (by decide)).2⟩

/-- C5: CheckExecutionLoop returns true exactly when `Current` is set, its
recorded context matches the incoming call's causal context (trace
identifiers equal, the source's observation of ancestry), its return mode
requires waiting for a result, no result has yet been sent for it, and the
incoming call is not a fire-and-forget method call; if any of these fails
it returns false. -/
theorem c5_checkExecutionLoop_iff (t : Nat) (es : ExecutionState) (m : Option MethodReturnMode) :
    checkExecutionLoop t es m = true ↔
      ∃ cur, es.Current = some cur ∧ cur.Context = t ∧
        cur.ReturnMode = .returnResult ∧ cur.SentResult = false ∧ m ≠ some .returnNoWait := by
  cases hc : es.Current with
  | none => simp [checkExecutionLoop, hc]
  | some cur =>
      by_cases hs : cur.SentResult <;>
        by_cases hr : cur.ReturnMode = MethodReturnMode.returnResult <;>
        by_cases hm : m = some MethodReturnMode.returnNoWait <;>
        simp_all [checkExecutionLoop]

/-- C6: for every ExecutionState with pending = Unknown, ClarifyPendingState
on a constructor call sets pending = NotPending for every possible oracle
answer (so without consulting the ledger oracle), and on a method call sets
InPending or NotPending according to the oracle's has-pending answer. -/
theorem c6_clarify_constructor_method (es : ExecutionState) (oracle : Except String Bool)
    (h : es.pending = .pendingUnknown) :
    (clarifyPendingState es .callConstructor oracle = ({ es with pending := .notPending }, none)) ∧
    (clarifyPendingState es .callMethod (.ok true) = ({ es with pending := .inPending }, none)) ∧
    (clarifyPendingState es .callMethod (.ok false) = ({ es with pending := .notPending }, none)) := by
  simp [clarifyPendingState, h]

/-- C6 witness: a constructor call on a fresh Unknown state resolves to
NotPending even when the oracle would fail. -/
theorem c6_clarify_witness :
    clarifyPendingState newExecutionState .callConstructor (.error "oracle down") =
      ({ newExecutionState with pending := .notPending }, none) :=
  (c6_clarify_constructor_method newExecutionState (.error "oracle down") (by decide)).1

/-- C7: when ClarifyPendingState resolves an Unknown status for a method
call and the ledger oracle fails, the pending status remains Unknown (the
state is unchanged) and the oracle error is returned to the caller. -/
theorem c7_clarify_oracle_error (es : ExecutionState) (e : String)
    (h : es.pending = .pendingUnknown) :
    clarifyPendingState es .callMethod (.error e) = (es, some e) := by
  simp [clarifyPendingState, h]

/-- C7 witness: an oracle failure on a fresh Unknown state leaves the state
unchanged and surfaces the error. -/
theorem c7_clarify_witness :
    clarifyPendingState newExecutionState .callMethod (.error "some") =
      (newExecutionState, some "some") :=
  c7_clarify_oracle_error newExecutionState "some" (by decide)

/-- C8: HandlePendingFinished sets pending = NotPending and clears the
cached object body when `Current` is unset (and calling it again on the
resulting state succeeds with the same state, so the handler is
idempotent), and returns an error value whenever `Current` is still set. -/
theorem c8_pendingFinished (st : ObjectState) (es : ExecutionState)
    (hes : st.executionState = some es) :
    (es.Current = none →
      handlePendingFinished (some st) =
        ({ st with executionState := some ({ es with pending := .notPending, objectbody := none }) }, none) ∧
      handlePendingFinished (some (handlePendingFinished (some st)).1) =
        ((handlePendingFinished (some st)).1, none)) ∧
    (es.Current.isSome → (handlePendingFinished (some st)).2.isSome = true) := by
  constructor
  · intro h
    have h1 : handlePendingFinished (some st) =
        ({ st with executionState := some ({ es with pending := .notPending, objectbody := none }) }, none) := by
      simp [handlePendingFinished, hes, h]
    refine ⟨h1, ?_⟩
    rw [h1]
    simp [handlePendingFinished, h]
  · intro h
    simp [handlePendingFinished, hes, h]

/-- C8 witness: with `Current` unset the handler clears pending and the
object body; with `Current` set it returns an error. -/
theorem c8_pendingFinished_witness :
    handlePendingFinished
        (some ⟨some ⟨[], none, .inPending, false, false, none, some ⟨9⟩⟩, none, none⟩) =
      (⟨some ⟨[], none, .notPending, false, false, none, none⟩, none, none⟩, none) ∧
    (handlePendingFinished
        (some ⟨some ⟨[], some ⟨0, .returnResult, false⟩, .inPending, false, false, none, none⟩,
          none, none⟩)).2.isSome = true :=
  ⟨((c8_pendingFinished ⟨some ⟨[], none, .inPending, false, false, none, some ⟨9⟩⟩, none, none⟩ ⟨[], none, .inPending, false, false, none, some ⟨9⟩⟩ rfl).1 rfl).1,
   (c8_pendingFinished ⟨some ⟨[], some ⟨0, .returnResult, false⟩, .inPending, false, false, none, none⟩, none, none⟩ ⟨[], some ⟨0, .returnResult, false⟩, .inPending, false, false, none, none⟩ rfl).2 rfl⟩

/-- C9: when unsafeGetLedgerPendingRequest fetches a pending request from
the ledger oracle (no element cached, ledger flagged as having more), it
checks authorization at the freshly obtained current pulse: when the node
is not authorized as of that pulse the fetched request is discarded and the
state is unchanged (the cached element stays unset); when authorized, the
fetched request becomes the cached LedgerQueueElement. -/
theorem c9_ledger_authorization (es : ExecutionState) (p : Parcel) (cp : Nat)
    (auth : Nat → Bool)
    (hcache : es.LedgerQueueElement = none) (hmore : es.LedgerHasMoreRequests = true) :
    (auth cp = false → unsafeGetLedgerPendingRequest es (.ok p) cp auth = es) ∧
    (auth cp = true →
      unsafeGetLedgerPendingRequest es (.ok p) cp auth =
        { es with LedgerQueueElement := some p }) := by
  constructor
  · intro h
    simp [unsafeGetLedgerPendingRequest, hcache, hmore, h]
  · intro h
    simp [unsafeGetLedgerPendingRequest, hcache, hmore, h]

/-- C9 witness: the same membership oracle (authorized only below pulse 2)
discards the fetched request at current pulse 3 and caches it at current
pulse 1. -/
theorem c9_ledger_authorization_witness :
    unsafeGetLedgerPendingRequest ⟨[], none, .pendingUnknown, false, true, none, none⟩
        (.ok ⟨1⟩) 3 (fun n => decide (n < 2)) =
      ⟨[], none, .pendingUnknown, false, true, none, none⟩ ∧
    unsafeGetLedgerPendingRequest ⟨[], none, .pendingUnknown, false, true, none, none⟩
        (.ok ⟨1⟩) 1 (fun n => decide (n < 2)) =
      ⟨[], none, .pendingUnknown, false, true, some ⟨1⟩, none⟩ :=
  ⟨(c9_ledger_authorization _ _ 3 _ rfl rfl).1 (by decide),
   (c9_ledger_authorization _ _ 1 _ rfl rfl).2 (by decide)⟩

/-- C10: for every inbound ReturnResults message whose sequence number has
no registered wait-point in the ResultMap, ReceiveResult returns an OK
reply with no error and leaves the map unchanged (the result is silently
dropped); when a wait-point exists, the message is delivered to it and the
entry removed, so a second message with the same sequence number is treated
as unwaited. -/
theorem c10_receiveResult (cr : ContractRequester) (msg : ReturnResults) :
    (msg.Sequence ∉ cr.ResultMap →
      ReceiveResult cr (.returnResults msg) = (cr, .okDropped)) ∧
    (msg.Sequence ∈ cr.ResultMap →
      (ReceiveResult cr (.returnResults msg)).2 = .okDelivered msg ∧
      msg.Sequence ∉ (ReceiveResult cr (.returnResults msg)).1.ResultMap ∧
      ReceiveResult (ReceiveResult cr (.returnResults msg)).1 (.returnResults msg)
        = ((ReceiveResult cr (.returnResults msg)).1, .okDropped)) := by
  constructor
  · intro h
    simp [ReceiveResult, h]
  · intro h
    have h2 : msg.Sequence ∉ (cr.ResultMap.filter (fun s => s ≠ msg.Sequence)) := by
      simp [List.mem_filter]
    refine ⟨by simp [ReceiveResult, h], ?_, ?_⟩
    · simp [ReceiveResult, h, h2]
    · simp [ReceiveResult, h, h2]

/-- C10 witness: an unwaited sequence number is dropped with the map
unchanged; a waited one is delivered. -/
theorem c10_receiveResult_witness :
    ReceiveResult ⟨[1, 2]⟩ (.returnResults ⟨3, 0⟩) = (⟨[1, 2]⟩, .okDropped) ∧
    (ReceiveResult ⟨[1, 2]⟩ (.returnResults ⟨2, 0⟩)).2 = .okDelivered ⟨2, 0⟩ :=
  ⟨(c10_receiveResult ⟨[1, 2]⟩ ⟨3, 0⟩).1 (by decide),
   ((c10_receiveResult ⟨[1, 2]⟩ ⟨2, 0⟩).2 (by decide)).1⟩

end Insolar
